import Mathlib

/-!
Shallow embedding of the AutoSimC permutation engine and result selector
(`item.py`, `permutator.py`, `splitter.py`, and the weapon-legality helper in
`main.py`), together with theorems settling the frozen specification claims.

Python floats are modelled as rationals (the claims only involve exactly
representable decimal values and order comparisons); Python exceptions are
modelled with `Except`/`Option`; Python dicts are modelled as association
lists in insertion order (CPython guarantees insertion order).
-/

/-! ## Generic helpers shared by several source functions -/

/-- `Permutator._stable_unique` (permutator.py:139-148): keep the first
occurrence of each element, in order.  CPython set membership tests
`x in seen` with `hash(x)` then `__eq__`; the `key` function is the value
fed to `hash` (for plain strings/ints it is the value itself, for `Item`
it is the `str(self.__dict__)` repr, see `Item.dictStr`). -/
def stableUniqueByAux {α β : Type} [DecidableEq β] (key : α → β) : List β → List α → List α
  | _, [] => []
  | seen, x :: xs =>
    if key x ∈ seen then stableUniqueByAux key seen xs
    else x :: stableUniqueByAux key (key x :: seen) xs

def stableUniqueBy {α β : Type} [DecidableEq β] (key : α → β) (l : List α) : List α :=
  stableUniqueByAux key [] l

/-- `_stable_unique` on values whose Python hash agrees with equality
(ints, strings, tuples thereof). -/
def stableUnique {α : Type} [DecidableEq α] (l : List α) : List α :=
  stableUniqueBy id l

/-- `Permutator._product` (permutator.py:190-203): the restartable generator
cartesian product; yields one tuple per combination, leftmost iterable
varying slowest, in input order. -/
def listProduct {α : Type} : List (List α) → List (List α)
  | [] => [[]]
  | l :: ls => l.flatMap (fun x => (listProduct ls).map (fun t => x :: t))

/-- One pool-suffix pass of `cwr`: pick the head as the next (repeatable)
element, or move to the next suffix. -/
def cwrAux {α : Type} (prev : List α → List (List α)) : List α → List (List α)
  | [] => []
  | x :: xs => ((prev (x :: xs)).map (fun t => x :: t)) ++ cwrAux prev xs

def cwrN {α : Type} : Nat → List α → List (List α)
  | 0, _ => [[]]
  | k + 1, l => cwrAux (cwrN k) l

/-- `itertools.combinations_with_replacement(pool, r)`: all multisets of size
`r` drawn from `pool`, emitted as non-decreasing index tuples in
lexicographic order. -/
def cwr {α : Type} (pool : List α) (r : Nat) : List (List α) :=
  cwrN r pool

/-- `itertools.combinations(pool, 2)`: all index pairs `i < j` in
lexicographic order. -/
def combinations2 {α : Type} : List α → List (α × α)
  | [] => []
  | x :: xs => (xs.map (fun y => (x, y))) ++ combinations2 xs

/-- `itertools.combinations_with_replacement(pool, 2)`: all index pairs
`i ≤ j` in lexicographic order. -/
def cwr2 {α : Type} : List α → List (α × α)
  | [] => []
  | x :: xs => (x, x) :: (xs.map (fun y => (x, y))) ++ cwr2 xs

/-- Python `str.rjust(width, "0")`. -/
def rjust (s : String) (width : Nat) (c : Char) : String :=
  if width ≤ s.length then s
  else String.mk (List.replicate (width - s.length) c) ++ s

/-- Python `str.split(sep)` for a single-character separator, over the
character list. -/
def chSplit (sep : Char) : List Char → List (List Char)
  | [] => [[]]
  | c :: rest =>
    if c = sep then [] :: chSplit sep rest
    else match chSplit sep rest with
      | [] => [[c]]
      | f :: fs => (c :: f) :: fs

/-- Python `str.split(sep)` for a single-character separator. -/
def pySplit (sep : Char) (s : String) : List String :=
  (chSplit sep s.toList).map String.mk

/-- Python `str.split("--")` (the only multi-character separator used,
`Item.parse_input` item.py:42): greedy left-to-right scan. -/
def chSplitDashDash : List Char → List (List Char)
  | [] => [[]]
  | '-' :: '-' :: rest => [] :: chSplitDashDash rest
  | c :: rest => match chSplitDashDash rest with
    | [] => [[c]]
    | f :: fs => (c :: f) :: fs

def pySplitDashDash (s : String) : List String :=
  (chSplitDashDash s.toList).map String.mk

/-- Python `str.lower()` (ASCII inputs only in this system). -/
def pyToLower (s : String) : String :=
  String.mk (s.toList.map Char.toLower)

/-- Python `str.replace('"', '')`: remove every double-quote character. -/
def pyRemoveQuotes (s : String) : String :=
  String.mk (s.toList.filter (fun c => ¬ c = '"'))

/-- Python `str.startswith(p)`. -/
def pyStartsWith (s p : String) : Bool :=
  p.toList.isPrefixOf s.toList

def digitVal (c : Char) : Option Nat :=
  if '0' ≤ c ∧ c ≤ '9' then some (c.toNat - '0'.toNat) else none

def digitsToNat : Option Nat → List Char → Option Nat
  | acc, [] => acc
  | acc, c :: rest =>
    match digitVal c with
    | none => none
    | some d => digitsToNat (some ((acc.getD 0) * 10 + d)) rest

/-- Python `int(s)`: optional sign then decimal digits; `none` models the
`ValueError` raised on malformed input. -/
def pyToInt (s : String) : Option Int :=
  match s.toList with
  | '-' :: rest => (digitsToNat none rest).map (fun n => -(n : Int))
  | '+' :: rest => (digitsToNat none rest).map (fun n => (n : Int))
  | l => (digitsToNat none l).map (fun n => (n : Int))

/-! ## Item model (`item.py`) -/

/-- `item.py` `Item`: one equippable object.  `output_str` is not stored:
in the source it is rebuilt by `_build_output_str` on construction and by
the `slot`/`gem_ids` property setters — the only attributes mutated after
construction in this system — so it is always the pure function
`Item.outputStr` of the other fields. -/
structure Item where
  slot : String
  name : String
  item_id : Int
  bonus_ids : List Int
  enchant_ids : List Int
  gem_ids : List Int
  drop_level : Int
  extra_options : List (String × List String)
deriving DecidableEq, Repr

/-- `Item.__init__` for an empty input string (the dummy item). -/
def emptyItem (slot : String) : Item :=
  { slot := slot, name := "", item_id := 0, bonus_ids := [], enchant_ids := [],
    gem_ids := [], drop_level := 0, extra_options := [] }

/-- `"/".join(str(v) for v in ids)` -/
def joinSlash (ids : List Int) : String :=
  String.intercalate "/" (ids.map toString)

/-- `Item._build_output_str` (item.py:64-76). -/
def Item.outputStr (it : Item) : String :=
  it.slot ++ "=" ++ it.name ++ ",id=" ++ toString it.item_id
  ++ (if it.bonus_ids.length ≠ 0 then ",bonus_id=" ++ joinSlash it.bonus_ids else "")
  ++ (if it.enchant_ids.length ≠ 0 then ",enchant_id=" ++ joinSlash it.enchant_ids else "")
  ++ (if it.gem_ids.length ≠ 0 then ",gem_id=" ++ joinSlash it.gem_ids else "")
  ++ (if 0 < it.drop_level then ",drop_level=" ++ toString it.drop_level else "")
  ++ String.join (it.extra_options.map (fun kv =>
       String.join (kv.2.map (fun v => "," ++ kv.1 ++ "=" ++ v))))

/-- `Item.__str__` (item.py:78-79). -/
def Item.pyStr (it : Item) : String :=
  "Item(" ++ it.outputStr ++ ")"

/-- `Item.__eq__` (item.py:84-85): equality of the `__str__` renderings. -/
def Item.pyEq (a b : Item) : Bool :=
  a.pyStr == b.pyStr

/-- Python `repr` of a list of ints, e.g. `[1, 2]`. -/
def pyReprIntList (l : List Int) : String :=
  "[" ++ String.intercalate ", " (l.map toString) ++ "]"

/-- Python `repr` of a string.  CPython wraps the text in single quotes;
the quote characters carry no information for any comparison made here, so
they are rendered as the placeholder `q`. -/
def pyReprStr (s : String) : String :=
  "q" ++ s ++ "q"

/-- Python `repr` of the `extra_options` dict of string → list of strings. -/
def pyReprExtra (d : List (String × List String)) : String :=
  "\x7b" ++ String.intercalate ", " (d.map (fun kv =>
    pyReprStr kv.1 ++ ": [" ++ String.intercalate ", " (kv.2.map pyReprStr) ++ "]")) ++ "\x7d"

/-- `str(self.__dict__)` — the value `Item.__hash__` (item.py:87-89) feeds to
`hash`.  Attribute insertion order follows `__init__`; the trailing
`output_str` entry is the stored encoding, always in sync (see `Item`). -/
def Item.dictStr (it : Item) : String :=
  "\x7b" ++ pyReprStr "_slot" ++ ": " ++ pyReprStr it.slot
  ++ ", " ++ pyReprStr "name" ++ ": " ++ pyReprStr it.name
  ++ ", " ++ pyReprStr "item_id" ++ ": " ++ toString it.item_id
  ++ ", " ++ pyReprStr "bonus_ids" ++ ": " ++ pyReprIntList it.bonus_ids
  ++ ", " ++ pyReprStr "enchant_ids" ++ ": " ++ pyReprIntList it.enchant_ids
  ++ ", " ++ pyReprStr "_gem_ids" ++ ": " ++ pyReprIntList it.gem_ids
  ++ ", " ++ pyReprStr "drop_level" ++ ": " ++ toString it.drop_level
  ++ ", " ++ pyReprStr "extra_options" ++ ": " ++ pyReprExtra it.extra_options
  ++ ", " ++ pyReprStr "output_str" ++ ": " ++ pyReprStr it.outputStr
  ++ "\x7d"

/-- Python `int(s)`; `none` models the `ValueError` raised on malformed
input. -/
def parsePyInt (s : String) : Option Int :=
  pyToInt s

/-- `"a/b/c"` → `[a, b, c]` as in `[int(v) for v in value.split("/")]`. -/
def parseSlashInts (v : String) : Option (List Int) :=
  (pySplit '/' v).mapM parsePyInt

/-- One `name=value` fragment of `Item.parse_input` (item.py:46-62). -/
def applyItemOption (it : Item) (nm v : String) : Option Item :=
  let nm := pyToLower nm
  if nm = "id" then (parsePyInt v).map (fun n => { it with item_id := n })
  else if nm = "bonus_id" then (parseSlashInts v).map (fun ns => { it with bonus_ids := ns })
  else if nm = "enchant_id" then (parseSlashInts v).map (fun ns => { it with enchant_ids := ns })
  else if nm = "gem_id" then (parseSlashInts v).map (fun ns => { it with gem_ids := ns })
  else if nm = "drop_level" then (parsePyInt v).map (fun n => { it with drop_level := n })
  else some { it with extra_options :=
    if it.extra_options.any (fun kv => kv.1 = nm) then
      it.extra_options.map (fun kv => if kv.1 = nm then (kv.1, kv.2 ++ [v]) else kv)
    else it.extra_options ++ [(nm, [v])] }

/-- Fold of `Item.parse_input` over the `,`-separated fragments after the
name; a fragment without exactly one `=` raises (`none`). -/
def applyItemOptions : Item → List String → Option Item
  | it, [] => some it
  | it, p :: ps =>
    match pySplit '=' p with
    | [nm, v] => (applyItemOption it nm v).bind (fun it' => applyItemOptions it' ps)
    | _ => none

/-- `Item.parse_input` (item.py:38-62): first fragment is the name (with
`--` prefix stripping), the rest are `name=value` options. -/
def parseInput (it : Item) (input_string : String) : Option Item :=
  let parts := pySplit ',' input_string
  match parts with
  | [] => some it
  | nm :: rest =>
    let splitted_name := pySplitDashDash nm
    let nm := if 1 < splitted_name.length then splitted_name[1]! else nm
    applyItemOptions { it with name := nm } rest

/-- Python `input_string.strip('"')`. -/
def stripQuotes (s : String) : String :=
  String.mk (((s.toList.dropWhile (fun c => c = '"')).reverse.dropWhile
    (fun c => c = '"')).reverse)

/-- `Item.__init__` (item.py:5-18): parse when non-empty, else dummy. -/
def mkItem (slot input_string : String) : Option Item :=
  if input_string.length ≠ 0 then parseInput (emptyItem slot) (stripQuotes input_string)
  else some (emptyItem slot)

/-! ## Weapon legality (`main.py:56-65`, `main.py:777-796`) -/

/-- `main.py` `WeaponType` enum. -/
inductive WeaponType where
  | DUMMY | ONEHAND | SHIELD | BOW | TWOHAND
  | OFFHAND_WEAPON | OFFHAND_SPECIAL_WEAPON | OFFHAND | GUN
deriving DecidableEq, Repr

/-- `main.py` `isValidWeaponPermutation` (777-796).  `weapondata` is the
externally supplied id→type table (`weapondata.json`); `weapondata[key]`
raises `KeyError` when the key is absent, modelled as `Except.error`.
`permutation[10]`/`permutation[11]` are the main-hand/off-hand positions of
a normal permutation tuple.  The source's first early return also tests
`oh_type is None`, which can never hold: the subscript lookup above it
either raises or yields a `WeaponType` member, so that branch is dead and
is modelled by `ohTypeIsNone := false`. -/
def isValidWeaponPermutation (weapondata : List (String × WeaponType))
    (wowClass : String) (permutation : List Item) : Except String Bool := do
  let mhItem ← match permutation[10]? with
    | some it => Except.ok it
    | none => Except.error "IndexError"
  let ohItem ← match permutation[11]? with
    | some it => Except.ok it
    | none => Except.error "IndexError"
  let mh_type ← match (weapondata.find? (fun kv => kv.1 = toString mhItem.item_id)) with
    | some kv => Except.ok kv.2
    | none => Except.error "KeyError"
  let oh_type ← match (weapondata.find? (fun kv => kv.1 = toString ohItem.item_id)) with
    | some kv => Except.ok kv.2
    | none => Except.error "KeyError"
  let ohTypeIsNone := false
  if (mh_type = WeaponType.BOW ∨ mh_type = WeaponType.GUN) ∧ ohTypeIsNone then
    Except.ok true
  else if wowClass ≠ "hunter" ∧ (mh_type = WeaponType.BOW ∨ mh_type = WeaponType.GUN) then
    Except.ok false
  else if wowClass ≠ "warrior" ∧ oh_type = WeaponType.TWOHAND then
    Except.ok false
  else if mh_type = WeaponType.SHIELD ∨ mh_type = WeaponType.OFFHAND then
    Except.ok false
  else if wowClass ≠ "warrior" ∧ mh_type = WeaponType.TWOHAND ∧
      (oh_type = WeaponType.OFFHAND ∨ oh_type = WeaponType.SHIELD) then
    Except.ok false
  else
    Except.ok true

/-! ## Talent permutation (`permutator.py:86-109`) -/

/-- One talent row: `'0'` expands to `['1','2','3']`, anything else stays. -/
def talentRowChoices (c : Char) : List Char :=
  if c = '0' then ['1', '2', '3'] else [c]

/-- `Permutator._permutate_talents`: split the input on `|`, expand each
base string's rows, take each base's cartesian product (leftmost row
slowest), re-join to strings, concatenate the blocks, deduplicate stably. -/
def permutateTalents (talents_list : String) : List String :=
  let bases := pySplit '|' talents_list
  let blocks := bases.map (fun talents =>
    (listProduct (talents.toList.map talentRowChoices)).map (fun cs => String.mk cs))
  stableUnique blocks.flatten

/-! ## Gem permutation (`permutator.py:23-63`) -/

/-- `Permutator._get_gem_combinations` (23-27). -/
def getGemCombinations (gems_to_use : List Int) (num_gem_slots : Nat) : List (List Int) :=
  if num_gem_slots = 0 then []
  else cwr gems_to_use num_gem_slots

/-- The re-partition loop of `_permutate_gems` (51-55): walk the slots in
order; each item receives the slice `gems[used : used + len(gem_ids)]` of
the combination. -/
def assignGems (gems : List Int) : List (String × Item) → Nat → List (String × Item)
  | [], _ => []
  | (slot, it) :: rest, used =>
    (slot, { it with gem_ids := (gems.drop used).take it.gem_ids.length })
      :: assignGems gems rest (used + it.gem_ids.length)

/-- `Permutator._permutate_gems` (29-63).  Faithful to the source's
aliasing: `combined_gem_list = gems_on_gear` binds the same list object and
`combined_gem_list += gem_list` extends it in place, so the subsequent
`len(gems_on_gear)` reads `sockets + len(gem_list)`, not the socket count.
Returns `none` for the bare `return` when no item has gems. -/
def permutateGems (items : List (String × Item)) (gem_list : List Int) :
    Option (List (List (String × Item))) :=
  let gems_on_gear := (items.map (fun p => p.2.gem_ids)).flatten
  if gems_on_gear.length = 0 then none
  else
    let gems_on_gear := gems_on_gear ++ gem_list   -- the in-place `+=` through the alias
    let combined_gem_list := stableUnique gems_on_gear
    let new_gems := getGemCombinations combined_gem_list gems_on_gear.length
    some (new_gems.map (fun gems => assignGems gems items 0))

/-! ## The permutation engine (`Permutator.permutate`, permutator.py:205-397)

The model starts at `parsed_gear` — the slot→items buckets the source
builds from the profile in lines 208-236 — plus the already-parsed
`--gems` id list (`_build_gem_list`, lines 150-165) and the remaining
constructor arguments.  Everything from line 241 on is modelled. -/

/-- The fields of `player_profile` consumed by `_write_to_file`. -/
structure PlayerProfile where
  wow_class : String
  profile_name : String
  general_options : String
deriving DecidableEq, Repr

/-- Input state of `Permutator.permutate` at line 241. -/
structure PermConfig where
  profile : PlayerProfile
  /-- `parsed_gear`: ordered dict, canonical slot name → items. -/
  parsedGear : List (String × List Item)
  /-- `splitted_gems` when `--gems` was given, else `none`. -/
  gemsArg : Option (List Int)
  uniqueJewelry : Bool
  /-- `player_profile.simc_options['talents']`. -/
  talentsStr : String
  /-- contents of the additional-input file (`_get_additional_input`). -/
  additionalOptions : String
deriving DecidableEq, Repr

/-- Lines 242-243: filter each slot bucket to unique items. -/
def parsedGearU (cfg : PermConfig) : List (String × List Item) :=
  cfg.parsedGear.map (fun kv => (kv.1, stableUniqueBy Item.dictStr kv.2))

/-- Line 251. -/
def talentPerms (cfg : PermConfig) : List String :=
  permutateTalents cfg.talentsStr

/-- Lines 254-261: total of the per-slot maxima of gem-socket counts
(0 when `--gems` was not given, the source then skips the loop). -/
def maxGemSlots (cfg : PermConfig) : Nat :=
  if cfg.gemsArg.isSome then
    ((parsedGearU cfg).map (fun kv =>
      (kv.2.map (fun it => it.gem_ids.length)).foldl max 0)).sum
  else 0

/-- Lines 263-265: `self.gems` is reset to `None` when no item has gems. -/
def effectiveGems (cfg : PermConfig) : Option (List Int) :=
  if maxGemSlots cfg = 0 then none else cfg.gemsArg

/-- Lines 267-269: the normal per-slot option sets (everything except the
paired `finger`/`trinket` buckets). -/
def normalOptions (cfg : PermConfig) : List (String × List Item) :=
  (parsedGearU cfg).filter (fun kv => ¬ kv.1 = "finger" ∧ ¬ kv.1 = "trinket")

/-- Line 272: the lazily re-iterated product of the normal option sets. -/
def normalPermutations (cfg : PermConfig) : List (List Item) :=
  listProduct ((normalOptions cfg).map (fun kv => kv.2))

/-- Lines 279-322: one paired-slot group (`finger` or `trinket`). -/
def specialPermutation (cfg : PermConfig) (name v1 v2 : String) : List (Item × Item) :=
  let entries := (((parsedGearU cfg).filter (fun kv => pyStartsWith kv.1 name)).map
    (fun kv => kv.2)).flatten
  let remove_empty_entries := entries.filter (fun it => it.item_id ≠ 0)
  let entries := if remove_empty_entries.length ≠ 0 then remove_empty_entries else entries
  let permutations := if cfg.uniqueJewelry then combinations2 entries else cwr2 entries
  let permutations := permutations.map (fun p =>
    ({ p.1 with slot := v1 }, { p.2 with slot := v2 }))
  let permutations := if cfg.uniqueJewelry then
      permutations.filter (fun p => p.1.item_id ≠ p.2.item_id)
    else permutations
  stableUniqueBy (fun p => (Item.dictStr p.1, Item.dictStr p.2)) permutations

def fingerPermutations (cfg : PermConfig) : List (Item × Item) :=
  specialPermutation cfg "finger" "finger1" "finger2"

def trinketPermutations (cfg : PermConfig) : List (Item × Item) :=
  specialPermutation cfg "trinket" "trinket1" "trinket2"

/-- Lines 338-343: the reported gem factor
`len(list(itertools.combinations_with_replacement(range(max_gem_slots), max_num_gems)))`
with `max_num_gems = max_gem_slots + len(splitted_gems)`. -/
def gemPermsFigure (cfg : PermConfig) : Nat :=
  match effectiveGems cfg with
  | none => 1
  | some splitted_gems =>
    (cwr (List.range (maxGemSlots cfg)) (maxGemSlots cfg + splitted_gems.length)).length

/-- Lines 324-344: the reported "max permutations" figure. -/
def maxNperm (cfg : PermConfig) : Nat :=
  ((normalOptions cfg).map (fun kv => kv.2.length)).prod
    * (fingerPermutations cfg).length
    * (trinketPermutations cfg).length
    * (talentPerms cfg).length
    * gemPermsFigure cfg

/-- Line 347: `len(str(max_nperm))`. -/
def maxProfileChars (cfg : PermConfig) : Nat :=
  (toString (maxNperm cfg)).length

/-- Python dict insert: overwrite keeps the first key position, a new key
appends. -/
def pyDictInsert {α : Type} (d : List (String × α)) (k : String) (v : α) :
    List (String × α) :=
  if d.any (fun kv => kv.1 = k) then
    d.map (fun kv => if kv.1 = k then (kv.1, v) else kv)
  else d ++ [(k, v)]

/-- `{e.slot: e for e in entries if isinstance(e, Item)}` (line 366); every
entry is an `Item`, so the `isinstance` guard always passes. -/
def buildItemsMap (entries : List Item) : List (String × Item) :=
  entries.foldl (fun d e => pyDictInsert d e.slot e) []

/-- Lines 363-366: `entries = perm_normal + perm_finger + perm_trinket`. -/
def tripleItems (pn : List Item) (pf pt : Item × Item) : List (String × Item) :=
  buildItemsMap (pn ++ [pf.1, pf.2] ++ [pt.1, pt.2])

/-- Lines 360-362: the triples in loop order. -/
def triplesList (cfg : PermConfig) : List (List (String × Item)) :=
  (normalPermutations cfg).flatMap (fun pn =>
    (fingerPermutations cfg).flatMap (fun pf =>
      (trinketPermutations cfg).map (fun pt => tripleItems pn pf pt)))

/-- Lines 368-372: the gear variants one triple expands to.  Without
`--gems` the single tuple `(items,)`; with gems the `_permutate_gems`
result, where `None` (no gems on this gear) makes the `if gem_permutations
is not None` guard skip the tuple entirely. -/
def tupleVariants (gems : Option (List Int)) (m : List (String × Item)) :
    List (List (String × Item)) :=
  match gems with
  | none => [m]
  | some splitted_gems => (permutateGems m splitted_gems).getD []

/-- Lines 372-378 flattened per triple: the (gear variant, talent string)
pairs written for one triple, in loop order. -/
def tuplePairs (gems : Option (List Int)) (talents : List String)
    (m : List (String × Item)) : List (List (String × Item) × String) :=
  (tupleVariants gems m).flatMap (fun gp => talents.map (fun t => (gp, t)))

/-- `Permutator._format_profile_for_simc` (65-70). -/
def formatProfileForSimc (items : List (String × Item)) : String :=
  String.intercalate "\n" (items.map (fun kv => kv.2.outputStr))

/-- `Permutator._write_to_file` (76-84): the text one record write appends
to the output file. -/
def writeRecord (cfg : PermConfig) (valid_profile_number : Nat) (talents : String)
    (items : List (String × Item)) : String :=
  let profile_name := rjust (toString valid_profile_number) (maxProfileChars cfg) '0'
  cfg.profile.wow_class ++ "=" ++
    ((pyRemoveQuotes cfg.profile.profile_name) ++ "_" ++ profile_name) ++ "\n"
  ++ cfg.profile.general_options
  ++ "\ntalents=" ++ talents ++ "\n"
  ++ formatProfileForSimc items
  ++ "\n" ++ cfg.additionalOptions ++ "\n"
  ++ "\n"

/-- Sequential writes: element `i` of the list is written with profile
number `k + i` (`valid_profiles` increments once per write). -/
def numberedWrites {α : Type} (w : Nat → α → String) : Nat → List α → List String
  | _, [] => []
  | k, p :: ps => w k p :: numberedWrites w (k + 1) ps

/-- Lines 359-381: the write loop over the triples, threading the
`valid_profiles` counter. -/
def loopTriples (w : Nat → (List (String × Item) × String) → String)
    (gems : Option (List Int)) (talents : List String) :
    Nat → List (List (String × Item)) → List String
  | _, [] => []
  | k, m :: ms =>
    let pairs := tuplePairs gems talents m
    numberedWrites w k pairs ++ loopTriples w gems talents (k + pairs.length) ms

/-- The full record stream `Permutator.permutate` writes to the output
file, in order. -/
def permutateRecords (cfg : PermConfig) : List String :=
  loopTriples (fun k p => writeRecord cfg k p.2 p.1)
    (effectiveGems cfg) (talentPerms cfg) 0 (triplesList cfg)

/-- The output file's byte content: concatenation of the records. -/
def permutateFileContent (cfg : PermConfig) : String :=
  String.join (permutateRecords cfg)

/-- The returned `valid_profiles` count. -/
def validProfiles (cfg : PermConfig) : Nat :=
  (permutateRecords cfg).length

/-- The spec's canonical output order (§4.4 "Output ordering is
deterministic"): one record per (normal tuple, finger pair, trinket pair,
gem variant, talent string), normal tuples in per-slot input order, then
pairs in generation order, then gem variants in combination order, then
talent strings in first-seen order, numbered sequentially from 0. -/
def canonicalRecords (cfg : PermConfig) : List String :=
  numberedWrites (fun k p => writeRecord cfg k p.2 p.1) 0
    ((triplesList cfg).flatMap (tuplePairs (effectiveGems cfg) (talentPerms cfg)))

/-! ## Result selector (`splitter.py:278-364`) -/

/-- A parsed result entry (`current_player` dict in `grab_best`);
`metric`/`metric_error` are Python floats, modelled as rationals. -/
structure ResultEntry where
  name : String
  metric : ℚ
  metric_error : ℚ
deriving DecidableEq, Repr

/-- The keep test of `_filter_by_target_error` (splitter.py:302-304):

`metric_best_player - metric < math.sqrt(err**2 + metric_error_best_player**2) * multiplier / 1.96`

rendered decidably over ℚ by squaring (`1.96 = 49/25`); `keepByTargetError_iff`
below proves this form equivalent to the square-root inequality over ℝ. -/
def keepByTargetError (mult : ℚ) (best entry : ResultEntry) : Bool :=
  let d := best.metric - entry.metric
  let s := entry.metric_error ^ 2 + best.metric_error ^ 2
  if 0 ≤ mult then
    decide (d < 0) || decide (d ^ 2 * (49 / 25 : ℚ) ^ 2 < s * mult ^ 2)
  else
    decide (d < 0) && decide (s * mult ^ 2 < d ^ 2 * (49 / 25 : ℚ) ^ 2)

/-- `_filter_by_target_error` (splitter.py:286-305).  `mult` is
`settings.default_error_rate_multiplier`.  Lists of length ≤ 2 are returned
unchanged; otherwise a zero best error raises `ValueError` (`Except.error`),
else every entry (the best one included) is run through the keep test in
order. -/
def filterByTargetError (mult : ℚ) (metric_results : List ResultEntry) :
    Except String (List ResultEntry) :=
  if 2 < metric_results.length then
    match metric_results with
    | [] => Except.ok []   -- unreachable under the length guard
    | best :: _ =>
      if best.metric_error = 0 then
        Except.error ("Metric error of best player " ++ best.name ++
          " is zero. Cannot filter by target_error.")
      else
        Except.ok (metric_results.filter (fun entry => keepByTargetError mult best entry))
  else Except.ok metric_results

/-- `_filter_by_length` (splitter.py:278-283). -/
def filterByLength (metric_results : List ResultEntry) (index : Nat) : List ResultEntry :=
  metric_results.take index

/-- Stable insertion step of an ascending sort by key: `x` goes in front of
the first element whose key is not smaller. -/
def sortedInsert {α : Type} (key : α → ℚ) (x : α) : List α → List α
  | [] => [x]
  | y :: ys => if key x ≤ key y then x :: y :: ys else y :: sortedInsert key x ys

/-- Python `sorted(l, key=...)`: stable, ascending.  Modelled as stable
insertion sort (elements inserted from the right, so equal keys keep their
original relative order). -/
def pySortAsc {α : Type} (key : α → ℚ) : List α → List α
  | [] => []
  | x :: xs => sortedInsert key x (pySortAsc key xs)

/-- `best = list(reversed(sorted(best, key=lambda entry: entry["metric"])))`
(splitter.py:356): the ranked list, metric descending. -/
def rankBest (l : List ResultEntry) : List ResultEntry :=
  (pySortAsc (fun entry => entry.metric) l).reverse

/-! ## Concrete inputs used by the evaluation theorems -/

/-- The canonical slot base names, first entry of each `gear_slots` alias
group (staticdata.py). -/
def gearSlotNames : List String :=
  ["head", "neck", "shoulder", "back", "chest", "wrist", "hands", "waist",
   "legs", "feet", "finger", "trinket", "main_hand", "off_hand"]

/-- A gear table with one item per slot: the given main-hand and off-hand
items, dummy items elsewhere (the source synthesizes these when a slot has
no entries, permutator.py:232-234). -/
def singleItemGear (mh oh : Item) : List (String × List Item) :=
  gearSlotNames.map (fun s =>
    (s, if s = "main_hand" then [mh] else if s = "off_hand" then [oh] else [emptyItem s]))

def bowItem : Item :=
  { emptyItem "main_hand" with name := "the_bow", item_id := 2 }

def onehandItem : Item :=
  { emptyItem "off_hand" with name := "the_dagger", item_id := 3 }

/-- id→type table for the weapon-legality evaluation: the bow and the
one-hander of `cfgBow`, plus the `id=0` dummy items of the other slots. -/
def weapondataEx : List (String × WeaponType) :=
  [("2", WeaponType.BOW), ("3", WeaponType.ONEHAND), ("0", WeaponType.ONEHAND)]

/-- A non-hunter profile whose only main-hand option is a bow. -/
def cfgBow : PermConfig :=
  { profile := { wow_class := "mage", profile_name := "P", general_options := "level=60" },
    parsedGear := singleItemGear bowItem onehandItem,
    gemsArg := none, uniqueJewelry := false,
    talentsStr := "1111111", additionalOptions := "" }

/-- One main-hand item with a single gem socket holding gem 311865
(haste), `--gems` requesting the single gem 311859 (vers). -/
def gemMhItem : Item :=
  { emptyItem "main_hand" with name := "socketed", item_id := 5, gem_ids := [311865] }

def cfgGem : PermConfig :=
  { profile := { wow_class := "mage", profile_name := "P", general_options := "level=60" },
    parsedGear := singleItemGear gemMhItem onehandItem,
    gemsArg := some [311859], uniqueJewelry := false,
    talentsStr := "1111111", additionalOptions := "" }

/-- The §8 gem example: equipped gems `[A, A, B]` (one item with three
sockets), requested vocabulary `[A, C]`, with `A`=311865 (haste),
`B`=311863 (crit), `C`=311859 (vers). -/
def gemExampleItem : Item :=
  { emptyItem "head" with
    name := "crown"
    item_id := 7
    gem_ids := [311865, 311865, 311863] }

def gemExampleItems : List (String × Item) :=
  [("head", gemExampleItem)]

/-- `Item("head", "foo,id=1,drop_level=-5")`: `drop_level` is parsed but,
being ≤ 0, omitted from the canonical encoding. -/
def itemDropNeg : Item :=
  { emptyItem "head" with name := "foo", item_id := 1, drop_level := -5 }

/-- `Item("head", "foo,id=1")`. -/
def itemDropZero : Item :=
  { emptyItem "head" with name := "foo", item_id := 1 }

/-! ## Theorems -/

/-- C5 counterexample: the Talent Permutator applied to `"0120"` does not
produce the three strings `1120, 2120, 3120` claimed; it produces nine
strings, because *every* `'0'` row (here rows 1 and 4) expands to
`{1,2,3}`. -/
theorem talents_0120_ce :
    permutateTalents "0120" ≠ ["1120", "2120", "3120"] ∧
    (permutateTalents "0120").length = 9 := by
  decide

/-- C5 (amended): the Talent Permutator applied to `"0120"` produces
exactly the nine strings obtained by expanding each of the two free rows
to `{1,2,3}`, in product order. -/
theorem talents_0120_nine :
    permutateTalents "0120" =
      ["1121", "1122", "1123", "2121", "2122", "2123", "3121", "3122", "3123"] := by
  decide

/-- C10: a ranked result list with at most 2 entries passes through the
target_error filter unchanged — no entry is removed and no zero-error check
is made (`if len(metric_results) > 2` guard, splitter.py:292). -/
theorem filter_short_list_unchanged (mult : ℚ) (l : List ResultEntry)
    (h : l.length ≤ 2) : filterByTargetError mult l = Except.ok l := by
  unfold filterByTargetError
  rw [if_neg (by omega)]

/-- Witness for C10 at a two-entry list whose best error is zero and whose
second entry fails the statistical band. -/
theorem filter_short_list_unchanged_witness :
    (([⟨"a", 100, 0⟩, ⟨"b", 98, 1⟩] : List ResultEntry).length ≤ 2) ∧
    filterByTargetError 1 [⟨"a", 100, 0⟩, ⟨"b", 98, 1⟩] =
      Except.ok [⟨"a", 100, 0⟩, ⟨"b", 98, 1⟩] :=
  ⟨by decide, filter_short_list_unchanged 1 _ (by decide)⟩

/-- C7 counterexample: a two-entry list whose best entry has
`metric_error = 0` is returned unchanged — the selector does not raise, so
the zero-error case is not always fatal. -/
theorem zero_error_short_list_ce :
    (⟨"a", 100, 0⟩ : ResultEntry).metric_error = 0 ∧
    filterByTargetError 1 [⟨"a", 100, 0⟩, ⟨"b", 98, 1⟩] =
      Except.ok [⟨"a", 100, 0⟩, ⟨"b", 98, 1⟩] := by
  exact ⟨by decide, by rfl⟩

/-- C7 (amended): whenever the ranked list has more than two entries and
the best entry's `metric_error` is exactly zero, the target_error filter
raises `ValueError` instead of producing a filtered list. -/
theorem zero_error_raises (mult : ℚ) (best : ResultEntry) (rest : List ResultEntry)
    (h : 2 < (best :: rest).length) (hz : best.metric_error = 0) :
    filterByTargetError mult (best :: rest) =
      Except.error ("Metric error of best player " ++ best.name ++
        " is zero. Cannot filter by target_error.") := by
  unfold filterByTargetError
  rw [if_pos h]
  simp [hz]

/-- Witness for C7 (amended) at a three-entry list. -/
theorem zero_error_raises_witness :
    (2 < ([⟨"a", 100, 0⟩, ⟨"b", 99, 1⟩, ⟨"c", 98, 1⟩] : List ResultEntry).length) ∧
    filterByTargetError 1 [⟨"a", 100, 0⟩, ⟨"b", 99, 1⟩, ⟨"c", 98, 1⟩] =
      Except.error "Metric error of best player a is zero. Cannot filter by target_error." :=
  ⟨by decide, zero_error_raises 1 ⟨"a", 100, 0⟩ [⟨"b", 99, 1⟩, ⟨"c", 98, 1⟩]
    (by decide) (by decide)⟩

/-- C6: the code contradicts its documented hashing contract.  The two
reachable items `Item("head", "foo,id=1,drop_level=-5")` and
`Item("head", "foo,id=1")` have identical canonical encodings (so
`__eq__` holds, first three conjuncts) but different `str(self.__dict__)`
hash inputs (`'drop_level': -5` vs `'drop_level': 0`), so their hashes are
not derived from the encoding and the `__eq__`/`__hash__` set contract is
broken. -/
theorem item_hash_not_from_encoding :
    mkItem "head" "foo,id=1,drop_level=-5" = some itemDropNeg ∧
    mkItem "head" "foo,id=1" = some itemDropZero ∧
    itemDropNeg.pyEq itemDropZero = true ∧
    itemDropNeg.dictStr ≠ itemDropZero.dictStr := by
  refine ⟨by decide, by decide, by decide, by decide⟩

/-- C9: on equipped gems `[A, A, B]` and requested vocabulary `[A, C]` the
combined stable-unique pool is `[A, B, C]` as claimed, but
`_permutate_gems` generates 21 assignment variants, not
`C(3+3-1, 3) = 10`: the `combined_gem_list = gems_on_gear` alias makes
`combined_gem_list += gem_list` extend `gems_on_gear` in place, so the
combination size passed to `_get_gem_combinations` is
`len(sockets) + len(requested) = 5` and `C(3+5-1, 5) = 21` oversized
combinations are produced (each then truncated back to the sockets,
creating duplicate assignments). -/
theorem gem_assignments_21_not_10 :
    stableUnique (((gemExampleItems.map (fun p => p.2.gem_ids)).flatten)
        ++ [311865, 311859]) = [311865, 311863, 311859] ∧
    (permutateGems gemExampleItems [311865, 311859]).map List.length = some 21 ∧
    Nat.choose (3 + 3 - 1) 3 = 10 := by
  refine ⟨by decide, by rfl, by decide⟩

/-- C1: the live engine `Permutator.permutate` never consults the
weapon-legality filter.  For the non-hunter profile `cfgBow` whose only
main-hand option is a bow, the single normal permutation tuple is rejected
by `main.py`'s `isValidWeaponPermutation` (first conjunct), yet the engine
still writes one candidate record for it (last conjunct). -/
theorem bow_mainhand_written_despite_filter :
    ((normalPermutations cfgBow).map
      (isValidWeaponPermutation weapondataEx cfgBow.profile.wow_class))
      = [Except.ok false] ∧
    cfgBow.profile.wow_class ≠ "hunter" ∧
    validProfiles cfgBow = 1 := by
  refine ⟨by rfl, by decide, by decide⟩

/-- C2 counterexample: for `cfgGem` (one gem socket holding gem A,
vocabulary requesting only gem C) the engine writes 3 records but reports
a "max permutations" figure of 1, so the produced total, the claimed
product, and the reported figure cannot all be equal. -/
theorem count_vs_report_ce :
    validProfiles cfgGem = 3 ∧ maxNperm cfgGem = 1 := by
  refine ⟨by decide, by decide⟩

/-- C4 counterexample: two distinct entries with equal metric are ranked
in the reverse of their parse order — `reversed(sorted(...))` flips ties —
refuting tie-stability. -/
theorem rank_ties_reversed_ce :
    rankBest [⟨"a", 100, 1⟩, ⟨"b", 100, 2⟩] = [⟨"b", 100, 2⟩, ⟨"a", 100, 1⟩] ∧
    (⟨"a", 100, 1⟩ : ResultEntry) ≠ ⟨"b", 100, 2⟩ := by
  decide

theorem sum_map_const {α : Type} (l : List α) (c : Nat) :
    (l.map (fun _ => c)).sum = l.length * c := by
  induction l with
  | nil => simp
  | cons x xs ih => simp [ih, Nat.succ_mul, Nat.add_comm]

theorem numberedWrites_append {α : Type} (w : Nat → α → String) (k : Nat)
    (a b : List α) :
    numberedWrites w k (a ++ b) =
      numberedWrites w k a ++ numberedWrites w (k + a.length) b := by
  induction a generalizing k with
  | nil => simp [numberedWrites]
  | cons x xs ih =>
    show w k x :: numberedWrites w (k + 1) (xs ++ b) =
      w k x :: (numberedWrites w (k + 1) xs ++ numberedWrites w (k + (xs.length + 1)) b)
    rw [ih, show k + 1 + xs.length = k + (xs.length + 1) from by omega]

theorem numberedWrites_length {α : Type} (w : Nat → α → String) (k : Nat)
    (l : List α) : (numberedWrites w k l).length = l.length := by
  induction l generalizing k with
  | nil => rfl
  | cons x xs ih => simp [numberedWrites, ih]

theorem loopTriples_eq_numbered (w : Nat → (List (String × Item) × String) → String)
    (gems : Option (List Int)) (talents : List String)
    (k : Nat) (ms : List (List (String × Item))) :
    loopTriples w gems talents k ms =
      numberedWrites w k (ms.flatMap (tuplePairs gems talents)) := by
  induction ms generalizing k with
  | nil => rfl
  | cons m ms ih =>
    simp only [loopTriples, List.flatMap_cons, numberedWrites_append, ih]

/-- C8: the record stream of `Permutator.permutate` is exactly the
canonical enumeration — one record per (normal tuple, finger pair, trinket
pair, gem variant, talent string) in the spec's deterministic nesting
order, numbered sequentially — and hence a pure function of the input
configuration: re-running on unchanged input reproduces byte-identical
output. -/
theorem permutate_records_canonical (cfg : PermConfig) :
    permutateRecords cfg = canonicalRecords cfg :=
  loopTriples_eq_numbered _ _ _ 0 (triplesList cfg)

theorem listProduct_length {α : Type} (ls : List (List α)) :
    (listProduct ls).length = (ls.map List.length).prod := by
  induction ls with
  | nil => rfl
  | cons l ls ih =>
    simp only [listProduct, List.length_flatMap, List.length_map, List.map_cons,
      List.prod_cons]
    have hc : (List.length ∘ fun x : α => List.map (fun t => x :: t) (listProduct ls))
        = fun _ => (listProduct ls).length := by
      funext x; simp
    rw [hc, sum_map_const, ih]

theorem triplesList_length (cfg : PermConfig) :
    (triplesList cfg).length =
      (normalPermutations cfg).length * (fingerPermutations cfg).length
        * (trinketPermutations cfg).length := by
  simp only [triplesList, List.length_flatMap, List.length_map]
  have hfn : (List.length ∘ fun pn => (fingerPermutations cfg).flatMap (fun pf =>
      List.map (fun pt => tripleItems pn pf pt) (trinketPermutations cfg)))
      = fun _ : List Item =>
        (fingerPermutations cfg).length * (trinketPermutations cfg).length := by
    funext pn
    simp only [Function.comp_apply, List.length_flatMap, List.length_map]
    have hc : (List.length ∘ fun pf => List.map (fun pt => tripleItems pn pf pt)
        (trinketPermutations cfg)) = fun _ : Item × Item =>
        (trinketPermutations cfg).length := by
      funext pf; simp
    rw [hc, sum_map_const]
  rw [hfn, sum_map_const, Nat.mul_assoc]

theorem normalPermutations_length (cfg : PermConfig) :
    (normalPermutations cfg).length =
      ((normalOptions cfg).map (fun kv => kv.2.length)).prod := by
  unfold normalPermutations
  rw [listProduct_length, List.map_map]
  rfl

/-- C2 (amended): when gem permutation is disabled (`--gems` absent, or no
item has sockets so the source resets `self.gems` to `None`), the number
of records the engine writes equals the product of the per-slot option
counts, the two paired-slot pair counts and the talent-string count, and
this equals the reported "max permutations" figure.  (With gem permutation
enabled the equality fails: see the counterexample, where 3 records are
written but 1 is reported.) -/
theorem count_matches_report_without_gems (cfg : PermConfig)
    (h : effectiveGems cfg = none) :
    validProfiles cfg =
      ((normalOptions cfg).map (fun kv => kv.2.length)).prod
        * (fingerPermutations cfg).length
        * (trinketPermutations cfg).length
        * (talentPerms cfg).length ∧
    validProfiles cfg = maxNperm cfg := by
  have hv : validProfiles cfg =
      (normalPermutations cfg).length * (fingerPermutations cfg).length
        * (trinketPermutations cfg).length * (talentPerms cfg).length := by
    unfold validProfiles permutateRecords
    rw [loopTriples_eq_numbered, numberedWrites_length, List.length_flatMap]
    have hc : (List.length ∘ tuplePairs (effectiveGems cfg) (talentPerms cfg))
        = fun _ : List (String × Item) => (talentPerms cfg).length := by
      funext m
      simp [tuplePairs, tupleVariants, h]
    rw [hc, sum_map_const, triplesList_length]
  constructor
  · rw [hv, normalPermutations_length]
  · rw [hv, normalPermutations_length]
    unfold maxNperm gemPermsFigure
    rw [h]
    simp

/-- Witness for C2 (amended) at the gem-free configuration `cfgBow`. -/
theorem count_matches_report_without_gems_witness :
    effectiveGems cfgBow = none ∧
    (validProfiles cfgBow =
      ((normalOptions cfgBow).map (fun kv => kv.2.length)).prod
        * (fingerPermutations cfgBow).length
        * (trinketPermutations cfgBow).length
        * (talentPerms cfgBow).length ∧
     validProfiles cfgBow = maxNperm cfgBow) :=
  ⟨by rfl, count_matches_report_without_gems cfgBow (by rfl)⟩

theorem sortedInsert_map {α β : Type} (key : α → ℚ) (key' : β → ℚ) (f : α → β)
    (hk : ∀ a, key' (f a) = key a) (x : α) (l : List α) :
    (sortedInsert key x l).map f = sortedInsert key' (f x) (l.map f) := by
  induction l with
  | nil => rfl
  | cons y ys ih =>
    by_cases h : key x ≤ key y
    · simp [sortedInsert, h, hk]
    · simp [sortedInsert, h, hk, ih]

theorem pySortAsc_map {α β : Type} (key : α → ℚ) (key' : β → ℚ) (f : α → β)
    (hk : ∀ a, key' (f a) = key a) (l : List α) :
    (pySortAsc key l).map f = pySortAsc key' (l.map f) := by
  induction l with
  | nil => rfl
  | cons x xs ih => simp [pySortAsc, sortedInsert_map key key' f hk, ih]

theorem mem_sortedInsert {α : Type} (key : α → ℚ) (x z : α) (l : List α) :
    z ∈ sortedInsert key x l ↔ z = x ∨ z ∈ l := by
  induction l with
  | nil => simp [sortedInsert]
  | cons y ys ih =>
    by_cases h : key x ≤ key y
    · simp [sortedInsert, h]
    · simp [sortedInsert, h, ih]
      tauto

theorem mem_pySortAsc {α : Type} (key : α → ℚ) (z : α) (l : List α) :
    z ∈ pySortAsc key l ↔ z ∈ l := by
  induction l with
  | nil => simp [pySortAsc]
  | cons x xs ih => simp [pySortAsc, mem_sortedInsert, ih]

/-- The strict order "smaller key, or equal key and smaller index". -/
def keyIdxLt {α : Type} (key : α → ℚ) (idx : α → Nat) (a b : α) : Prop :=
  key a < key b ∨ (key a = key b ∧ idx a < idx b)

theorem sortedInsert_pairwise {α : Type} (key : α → ℚ) (idx : α → Nat) (x : α)
    (l : List α) (hl : l.Pairwise (keyIdxLt key idx))
    (hx : ∀ y ∈ l, idx x < idx y) :
    (sortedInsert key x l).Pairwise (keyIdxLt key idx) := by
  induction l with
  | nil => simp [sortedInsert, keyIdxLt]
  | cons y ys ih =>
    rw [List.pairwise_cons] at hl
    by_cases h : key x ≤ key y
    · rw [sortedInsert, if_pos h, List.pairwise_cons]
      refine ⟨?_, List.pairwise_cons.mpr hl⟩
      intro z hz
      rcases List.mem_cons.mp hz with hz | hz
      · subst hz
        rcases lt_or_eq_of_le h with h' | h'
        · exact Or.inl h'
        · exact Or.inr ⟨h', hx z (by simp)⟩
      · have hyz := hl.1 z hz
        have hkz : key y ≤ key z := by
          rcases hyz with h' | h'
          · exact le_of_lt h'
          · exact le_of_eq h'.1
        rcases lt_or_eq_of_le (le_trans h hkz) with h' | h'
        · exact Or.inl h'
        · exact Or.inr ⟨h', hx z (by simp [hz])⟩
    · rw [sortedInsert, if_neg h, List.pairwise_cons]
      constructor
      · intro z hz
        rcases (mem_sortedInsert key x z ys).mp hz with hz | hz
        · subst hz
          exact Or.inl (lt_of_not_le h)
        · exact hl.1 z hz
      · exact ih hl.2 (fun y hy => hx y (by simp [hy]))

theorem pySortAsc_pairwise {α : Type} (key : α → ℚ) (idx : α → Nat)
    (l : List α) (hidx : l.Pairwise (fun a b => idx a < idx b)) :
    (pySortAsc key l).Pairwise (keyIdxLt key idx) := by
  induction l with
  | nil => simp [pySortAsc]
  | cons x xs ih =>
    rw [List.pairwise_cons] at hidx
    refine sortedInsert_pairwise key idx x _ (ih hidx.2) ?_
    intro y hy
    exact hidx.1 y ((mem_pySortAsc key y xs).mp hy)

theorem enumFrom_fst_lt {α : Type} (n : Nat) (l : List α) :
    ∀ p ∈ l.enumFrom n, n ≤ p.1 := by
  induction l generalizing n with
  | nil => simp
  | cons x xs ih =>
    intro p hp
    rcases List.mem_cons.mp hp with hp | hp
    · simp [hp]
    · exact le_of_lt (Nat.lt_of_lt_of_le (Nat.lt_succ_self n) (ih (n + 1) p hp))

theorem enumFrom_pairwise {α : Type} (n : Nat) (l : List α) :
    (l.enumFrom n).Pairwise (fun a b => a.1 < b.1) := by
  induction l generalizing n with
  | nil => simp
  | cons x xs ih =>
    rw [List.enumFrom_cons, List.pairwise_cons]
    exact ⟨fun p hp => Nat.lt_of_lt_of_le (Nat.lt_succ_self n)
      (enumFrom_fst_lt (n + 1) xs p hp), ih (n + 1)⟩

/-- C4 (amended): the Result Selector's ranking is sorted by metric in
descending order, but on ties the relative order is the *reverse* of the
original parse order — `reversed(sorted(...))` flips the order of
equal-metric entries (stable ascending sort, then a whole-list reversal).
Stated over the index-decorated parse stream `l.enum`: the ranked list is
the projection of the reversed stable sort, and in that reversed sort
every earlier element has strictly larger metric, or equal metric and
strictly larger original index. -/
theorem rank_desc_ties_reversed (l : List ResultEntry) :
    rankBest l =
      ((pySortAsc (fun p : Nat × ResultEntry => p.2.metric) l.enum).reverse).map
        Prod.snd ∧
    ((pySortAsc (fun p : Nat × ResultEntry => p.2.metric) l.enum).reverse).Pairwise
      (fun a b => b.2.metric < a.2.metric ∨ (b.2.metric = a.2.metric ∧ b.1 < a.1)) := by
  constructor
  · rw [List.map_reverse, pySortAsc_map (fun p : Nat × ResultEntry => p.2.metric)
      (fun e => e.metric) Prod.snd (fun a => rfl) l.enum, List.enum_map_snd]
    rfl
  · rw [List.pairwise_reverse]
    exact pySortAsc_pairwise (fun p : Nat × ResultEntry => p.2.metric) Prod.fst
      l.enum (enumFrom_pairwise 0 l)

theorem lt_sqrt_mul_of_nonneg (dR sR c : ℝ) (hs : 0 ≤ sR) (hc : 0 ≤ c) :
    dR < Real.sqrt sR * c ↔ (dR < 0 ∨ dR ^ 2 < sR * c ^ 2) := by
  have h1 : Real.sqrt sR * c = Real.sqrt (sR * c ^ 2) := by
    rw [Real.sqrt_mul hs, Real.sqrt_sq hc]
  rw [h1]
  constructor
  · intro h
    by_cases hd : dR < 0
    · exact Or.inl hd
    · push_neg at hd
      exact Or.inr ((Real.lt_sqrt hd).mp h)
  · intro h
    rcases h with h | h
    · exact lt_of_lt_of_le h (Real.sqrt_nonneg _)
    · by_cases hd : dR < 0
      · exact lt_of_lt_of_le hd (Real.sqrt_nonneg _)
      · push_neg at hd
        exact (Real.lt_sqrt hd).mpr h

theorem lt_sqrt_mul_of_neg (dR sR c : ℝ) (hs : 0 ≤ sR) (hc : c < 0) :
    dR < Real.sqrt sR * c ↔ (dR < 0 ∧ sR * c ^ 2 < dR ^ 2) := by
  have h1 : Real.sqrt sR * c = -Real.sqrt (sR * c ^ 2) := by
    rw [Real.sqrt_mul hs, show c ^ 2 = (-c) ^ 2 from by ring,
      Real.sqrt_sq (by linarith : (0:ℝ) ≤ -c)]
    ring
  rw [h1]
  constructor
  · intro h
    have hsq : (0:ℝ) ≤ Real.sqrt (sR * c ^ 2) := Real.sqrt_nonneg _
    have hd : dR < 0 := by linarith
    refine ⟨hd, ?_⟩
    have h2 : Real.sqrt (sR * c ^ 2) < -dR := by linarith
    have h3 := (Real.sqrt_lt' (by linarith : (0:ℝ) < -dR)).mp h2
    calc sR * c ^ 2 < (-dR) ^ 2 := h3
    _ = dR ^ 2 := by ring
  · rintro ⟨hd, h2⟩
    have h3 : Real.sqrt (sR * c ^ 2) < -dR := by
      refine (Real.sqrt_lt' (by linarith)).mpr ?_
      calc sR * c ^ 2 < dR ^ 2 := h2
      _ = (-dR) ^ 2 := by ring
    linarith

/-- The squared rendering in `keepByTargetError` is exactly the source's
square-root band test, read over the reals. -/
theorem keepByTargetError_iff (mult : ℚ) (best e : ResultEntry) :
    keepByTargetError mult best e = true ↔
      ((best.metric : ℝ) - (e.metric : ℝ) <
        Real.sqrt ((e.metric_error : ℝ) ^ 2 + (best.metric_error : ℝ) ^ 2)
          * (mult : ℝ) / 1.96) := by
  unfold keepByTargetError
  have hs : (0:ℝ) ≤ (e.metric_error : ℝ) ^ 2 + (best.metric_error : ℝ) ^ 2 := by positivity
  have hform : Real.sqrt ((e.metric_error : ℝ) ^ 2 + (best.metric_error : ℝ) ^ 2)
      * (mult : ℝ) / 1.96
      = Real.sqrt ((e.metric_error : ℝ) ^ 2 + (best.metric_error : ℝ) ^ 2)
        * ((mult : ℝ) / 1.96) := by ring
  have hd0 : (best.metric - e.metric < 0) ↔
      ((best.metric : ℝ) - (e.metric : ℝ) < 0) := by
    constructor
    · intro h
      have h' := (Rat.cast_lt (K := ℝ)).mpr h
      push_cast at h'
      linarith
    · intro h
      have h' : ((best.metric - e.metric : ℚ) : ℝ) < ((0 : ℚ) : ℝ) := by push_cast; linarith
      exact_mod_cast h'
  have halg : (((best.metric : ℝ) - (e.metric : ℝ)) ^ 2 <
        ((e.metric_error : ℝ) ^ 2 + (best.metric_error : ℝ) ^ 2) * ((mult : ℝ) / 1.96) ^ 2) ↔
      (((best.metric : ℝ) - (e.metric : ℝ)) ^ 2 * ((49 : ℝ) / 25) ^ 2 <
        ((e.metric_error : ℝ) ^ 2 + (best.metric_error : ℝ) ^ 2) * (mult : ℝ) ^ 2) := by
    rw [show (((mult : ℝ) / 1.96) ^ 2 : ℝ) = (mult : ℝ) ^ 2 / ((49 : ℝ) / 25) ^ 2 from by
      rw [div_pow]; norm_num]
    rw [show ((e.metric_error : ℝ) ^ 2 + (best.metric_error : ℝ) ^ 2)
          * ((mult : ℝ) ^ 2 / ((49 : ℝ) / 25) ^ 2)
        = ((e.metric_error : ℝ) ^ 2 + (best.metric_error : ℝ) ^ 2) * (mult : ℝ) ^ 2
          / ((49 : ℝ) / 25) ^ 2 from by ring]
    rw [lt_div_iff₀ (by norm_num : (0:ℝ) < ((49 : ℝ) / 25) ^ 2)]
  have hcast : ((best.metric - e.metric) ^ 2 * (49 / 25 : ℚ) ^ 2 <
        (e.metric_error ^ 2 + best.metric_error ^ 2) * mult ^ 2) ↔
      (((best.metric : ℝ) - (e.metric : ℝ)) ^ 2 * ((49 : ℝ) / 25) ^ 2 <
        ((e.metric_error : ℝ) ^ 2 + (best.metric_error : ℝ) ^ 2) * (mult : ℝ) ^ 2) := by
    constructor
    · intro h
      have h' := (Rat.cast_lt (K := ℝ)).mpr h
      push_cast at h'
      convert h' using 2
    · intro h
      have h' : (((best.metric - e.metric) ^ 2 * (49 / 25 : ℚ) ^ 2 : ℚ) : ℝ) <
          (((e.metric_error ^ 2 + best.metric_error ^ 2) * mult ^ 2 : ℚ) : ℝ) := by
        push_cast
        convert h using 2
      exact_mod_cast h'
  by_cases hm : 0 ≤ mult
  · rw [if_pos hm]
    have hc : (0:ℝ) ≤ (mult : ℝ) / 1.96 := by
      have hm' : (0:ℝ) ≤ (mult : ℝ) := by exact_mod_cast hm
      positivity
    rw [hform, lt_sqrt_mul_of_nonneg _ _ _ hs hc]
    simp only [Bool.or_eq_true, decide_eq_true_eq]
    exact or_congr hd0 (hcast.trans halg.symm)
  · rw [if_neg hm]
    push_neg at hm
    have hc : ((mult : ℝ) / 1.96) < 0 := by
      have hm' : (mult : ℝ) < 0 := by exact_mod_cast hm
      exact div_neg_of_neg_of_pos hm' (by norm_num)
    rw [hform, lt_sqrt_mul_of_neg _ _ _ hs hc]
    simp only [Bool.and_eq_true, decide_eq_true_eq]
    refine and_congr hd0 ?_
    have halg2 : (((e.metric_error : ℝ) ^ 2 + (best.metric_error : ℝ) ^ 2)
          * ((mult : ℝ) / 1.96) ^ 2 < ((best.metric : ℝ) - (e.metric : ℝ)) ^ 2) ↔
        (((e.metric_error : ℝ) ^ 2 + (best.metric_error : ℝ) ^ 2) * (mult : ℝ) ^ 2 <
          ((best.metric : ℝ) - (e.metric : ℝ)) ^ 2 * ((49 : ℝ) / 25) ^ 2) := by
      rw [show (((mult : ℝ) / 1.96) ^ 2 : ℝ) = (mult : ℝ) ^ 2 / ((49 : ℝ) / 25) ^ 2 from by
        rw [div_pow]; norm_num]
      rw [show ((e.metric_error : ℝ) ^ 2 + (best.metric_error : ℝ) ^ 2)
            * ((mult : ℝ) ^ 2 / ((49 : ℝ) / 25) ^ 2)
          = ((e.metric_error : ℝ) ^ 2 + (best.metric_error : ℝ) ^ 2) * (mult : ℝ) ^ 2
            / ((49 : ℝ) / 25) ^ 2 from by ring]
      rw [div_lt_iff₀ (by norm_num : (0:ℝ) < ((49 : ℝ) / 25) ^ 2)]
    have hcast2 : ((e.metric_error ^ 2 + best.metric_error ^ 2) * mult ^ 2 <
          (best.metric - e.metric) ^ 2 * (49 / 25 : ℚ) ^ 2) ↔
        (((e.metric_error : ℝ) ^ 2 + (best.metric_error : ℝ) ^ 2) * (mult : ℝ) ^ 2 <
          ((best.metric : ℝ) - (e.metric : ℝ)) ^ 2 * ((49 : ℝ) / 25) ^ 2) := by
      constructor
      · intro h
        have h' := (Rat.cast_lt (K := ℝ)).mpr h
        push_cast at h'
        convert h' using 2
      · intro h
        have h' : (((e.metric_error ^ 2 + best.metric_error ^ 2) * mult ^ 2 : ℚ) : ℝ) <
            (((best.metric - e.metric) ^ 2 * (49 / 25 : ℚ) ^ 2 : ℚ) : ℝ) := by
          push_cast
          convert h using 2
        exact_mod_cast h'
    exact hcast2.trans halg2.symm

/-- C3 counterexample: with best 100±1 and multiplier 1.0, a second entry
at 98±1 fails the statistical band (`2 ≥ sqrt(2)/1.96`), yet on this
two-entry list the filter keeps it — the band is only applied to lists of
more than two entries. -/
theorem targetError_small_list_ce :
    filterByTargetError 1 [⟨"best", 100, 1⟩, ⟨"low", 98, 1⟩] =
      Except.ok [⟨"best", 100, 1⟩, ⟨"low", 98, 1⟩] ∧
    ¬((100 : ℝ) - 98 < Real.sqrt ((1 : ℝ) ^ 2 + (1 : ℝ) ^ 2) * 1 / 1.96) := by
  constructor
  · rfl
  · intro hcon
    have h2 : Real.sqrt ((1 : ℝ) ^ 2 + (1 : ℝ) ^ 2) < 3.92 := by
      refine (Real.sqrt_lt' (by norm_num)).mpr ?_
      norm_num
    rw [lt_div_iff₀ (by norm_num : (0:ℝ) < 1.96)] at hcon
    nlinarith [h2, hcon]

/-- C3 (amended): for a ranked list of *more than two* entries whose best
entry has non-zero error, the target_error filter returns exactly the
entries passing the keep test, in order; with a positive multiplier the
best entry always passes its own test; and the keep test holds for an
entry iff `best.metric − entry.metric <
sqrt(entry.metric_error² + best.metric_error²) × multiplier / 1.96`.
Lists of at most two entries are returned unchanged
(`filter_short_list_unchanged`). -/
theorem targetError_filter_band (mult : ℚ) (best : ResultEntry)
    (rest : List ResultEntry) (hlen : 2 < (best :: rest).length)
    (hz : best.metric_error ≠ 0) (hm : 0 < mult) :
    filterByTargetError mult (best :: rest) =
      Except.ok ((best :: rest).filter (fun e => keepByTargetError mult best e)) ∧
    keepByTargetError mult best best = true ∧
    (∀ e : ResultEntry, keepByTargetError mult best e = true ↔
      ((best.metric : ℝ) - (e.metric : ℝ) <
        Real.sqrt ((e.metric_error : ℝ) ^ 2 + (best.metric_error : ℝ) ^ 2)
          * (mult : ℝ) / 1.96)) := by
  refine ⟨?_, ?_, fun e => keepByTargetError_iff mult best e⟩
  · unfold filterByTargetError
    rw [if_pos hlen]
    simp [hz]
  · unfold keepByTargetError
    rw [if_pos (le_of_lt hm)]
    have hs : 0 < best.metric_error ^ 2 := by positivity
    have hm2 : 0 < mult ^ 2 := by positivity
    simp only [Bool.or_eq_true, decide_eq_true_eq]
    right
    nlinarith [hs, hm2]

/-- Witness for C3 (amended) at the spec's example: best 100±1,
candidates 99.5±1 and 98±1, multiplier 1. -/
theorem targetError_filter_band_witness :
    (2 < ([⟨"best", 100, 1⟩, ⟨"mid", 99.5, 1⟩, ⟨"low", 98, 1⟩] : List ResultEntry).length) ∧
    ((⟨"best", 100, 1⟩ : ResultEntry).metric_error ≠ 0) ∧ ((0:ℚ) < 1) ∧
    (filterByTargetError 1 [⟨"best", 100, 1⟩, ⟨"mid", 99.5, 1⟩, ⟨"low", 98, 1⟩] =
      Except.ok (([⟨"best", 100, 1⟩, ⟨"mid", 99.5, 1⟩, ⟨"low", 98, 1⟩] :
        List ResultEntry).filter
          (fun e => keepByTargetError 1 ⟨"best", 100, 1⟩ e)) ∧
     keepByTargetError 1 ⟨"best", 100, 1⟩ ⟨"best", 100, 1⟩ = true ∧
     (∀ e : ResultEntry, keepByTargetError 1 ⟨"best", 100, 1⟩ e = true ↔
       (((⟨"best", 100, 1⟩ : ResultEntry).metric : ℝ) - (e.metric : ℝ) <
         Real.sqrt ((e.metric_error : ℝ) ^ 2 +
           (((⟨"best", 100, 1⟩ : ResultEntry).metric_error : ℝ)) ^ 2)
           * ((1 : ℚ) : ℝ) / 1.96))) :=
  ⟨by decide, by decide, by decide,
    targetError_filter_band 1 ⟨"best", 100, 1⟩ [⟨"mid", 99.5, 1⟩, ⟨"low", 98, 1⟩]
      (by decide) (by decide) (by decide)⟩
